import Mathlib

/-!
Shallow embedding of the AI gateway route (`frontend/app/api/ai/route.ts`):
the context formatter, prompt assembler, quota gate, backend selector,
stream normalizer and usage recorder, together with theorems checking the
specification's claims against this embedding.
-/

namespace AIRoute

/-- Model of JavaScript `Array.prototype.join(sep)`. -/
def joinSep (sep : String) : List String → String
  | [] => ""
  | [s] => s
  | s :: s' :: rest => s ++ sep ++ joinSep sep (s' :: rest)

/-- File-tree node (`TFile | TFolder` from `@/lib/types` as used by
`formatFileStructure`): a folder's `children` may be absent or not an
array, modelled as `Option (List TNode)`. -/
inductive TNode where
  | file (name : String)
  | folder (name : String) (children : Option (List TNode))

/-- The `name` field of a node. -/
def TNode.name : TNode → String
  | .file n => n
  | .folder n _ => n

/-- The `type` field of a node (`"file"` or `"folder"`). -/
def TNode.ntype : TNode → String
  | .file _ => "file"
  | .folder _ _ => "folder"

/-- Model of JavaScript `pattern.replace("*", "")`: removes the FIRST
occurrence of `*` (JS `String.replace` with a string pattern replaces only
the first match). -/
def removeFirstStar : List Char → List Char
  | [] => []
  | c :: cs => if c = '*' then cs else c :: removeFirstStar cs

/-- Model of JavaScript `pattern.replace("*", "")` on `String`. -/
def replaceFirstStar (s : String) : String :=
  ⟨removeFirstStar s.data⟩

/-- Model of JavaScript `a.endsWith(b)`: `b` is a suffix of `a`. -/
def strEndsWith (a b : String) : Bool :=
  b.data.isSuffixOf a.data

/-- Process-wide data imported by the route from modules that are not part
of the analysed sources (`ignored-paths`, `tiers`, `templates`) plus the
`localeCompare` collation; all are kept abstract as parameters, since
every claim below is settled uniformly in them. `lc` models JavaScript
`a.localeCompare(b)` (negative / zero / positive). -/
structure FmtConfig where
  ignoredFiles : List String
  ignoredFolders : List String
  lc : String → String → Int

/-- The sort comparator of `formatFileStructure` (route.ts lines 36-39):
same type compares names with `localeCompare`; otherwise folders come
first. -/
def nodeCompare (lc : String → String → Int) (a b : TNode) : Int :=
  if a.ntype == b.ntype then lc a.name b.name
  else if a.ntype == "folder" then -1 else 1

/-- Boolean "comes no later than" relation induced by the comparator, as
used by a stable `Array.prototype.sort`. -/
def nodeLe (lc : String → String → Int) (a b : TNode) : Bool :=
  decide (nodeCompare lc a b ≤ 0)

/-- The `[...items].sort(...)` of route.ts line 36: JavaScript sort is
required to be stable, modelled by stable `List.mergeSort`. -/
def sortNodes (lc : String → String → Int) (items : List TNode) : List TNode :=
  items.mergeSort (nodeLe lc)

/-- The file-ignore test of route.ts lines 45-49:
`name.endsWith(pattern.replace("*","")) || name === pattern`. -/
def fileIgnored (patterns : List String) (name : String) : Bool :=
  patterns.any fun pat => strEndsWith name (replaceFirstStar pat) || name == pat

/-- The folder-ignore test of route.ts line 54:
`ignoredFolders.some((folder) => folder === item.name)`. -/
def folderIgnored (folders : List String) (name : String) : Bool :=
  folders.any fun f => f == name

/-- `formatFileStructure` (route.ts lines 27-66): renders the tree string.
An absent/non-array `items` yields `"No files available"`; otherwise the
items are stable-sorted (folders first, names by `localeCompare`), ignored
files and folders are dropped (`.filter(Boolean)`), files render as one
line, folders render as a line followed by their recursively rendered
children, and the entries are joined with `"\n"`. -/
def formatFileStructure (cfg : FmtConfig) : Option (List TNode) → String → String
  | none, _ => "No files available"
  | some items, pfx =>
    joinSep "\n" ((sortNodes cfg.lc items).attach.filterMap fun x =>
      match x with
      | ⟨.file name, _⟩ =>
        if fileIgnored cfg.ignoredFiles name then none
        else some (pfx ++ "├── " ++ name)
      | ⟨.folder name children, hmem⟩ =>
        if folderIgnored cfg.ignoredFolders name then none
        else some (pfx ++ "├── " ++ name ++ "/\n" ++
          formatFileStructure cfg children (pfx ++ "│   ")))
termination_by o _ => sizeOf o
decreasing_by
  simp only [sortNodes] at hmem
  have hmem' : TNode.folder name children ∈ items :=
    ((List.mergeSort_perm items (nodeLe cfg.lc)).mem_iff).mp hmem
  have h1 : sizeOf (TNode.folder name children) < sizeOf items :=
    List.sizeOf_lt_of_mem hmem'
  simp only [TNode.folder.sizeOf_spec] at h1
  simp only [Option.some.sizeOf_spec]
  omega

/-- The body of the map/filter step of `formatFileStructure` (route.ts
lines 42-63) as a standalone function on nodes, used to restate the
definition without `attach`. -/
def renderEntry (cfg : FmtConfig) (pfx : String) : TNode → Option String
  | .file name =>
    if fileIgnored cfg.ignoredFiles name then none
    else some (pfx ++ "├── " ++ name)
  | .folder name children =>
    if folderIgnored cfg.ignoredFolders name then none
    else some (pfx ++ "├── " ++ name ++ "/\n" ++
      formatFileStructure cfg children (pfx ++ "│   "))

/-- The file-ignore rule exactly as the claim words it: exact equality, or
suffix match after stripping a TRAILING wildcard marker from the pattern. -/
def claimStripTrailingStar (pat : String) : String :=
  if strEndsWith pat "*" then pat.dropRight 1 else pat

/-- A file name matches an ignore pattern in the claim's (as-written)
sense. -/
def claimFileMatch (patterns : List String) (name : String) : Bool :=
  patterns.any fun pat => name == pat || strEndsWith name (claimStripTrailingStar pat)

/-- The file-ignore rule as the amended claim words it: exact equality, or
suffix match after removing the first occurrence of the wildcard marker
from the pattern. -/
def specFileMatch (patterns : List String) (name : String) : Bool :=
  patterns.any fun pat => name == pat || strEndsWith name (replaceFirstStar pat)

/-- A folder is dropped when its name exactly equals an ignored-folder
name, as the claim words it. -/
def specFolderMatch (folders : List String) (name : String) : Bool :=
  folders.any fun f => name == f

/-- Rendering as the (amended) claim describes it: no line for a matching
File, no line (and no descendants) for a matching Folder, everything else
rendered. -/
def specRender (cfg : FmtConfig) : Option (List TNode) → String → String
  | none, _ => "No files available"
  | some items, pfx =>
    joinSep "\n" ((sortNodes cfg.lc items).attach.filterMap fun x =>
      match x with
      | ⟨.file name, _⟩ =>
        if specFileMatch cfg.ignoredFiles name then none
        else some (pfx ++ "├── " ++ name)
      | ⟨.folder name children, hmem⟩ =>
        if specFolderMatch cfg.ignoredFolders name then none
        else some (pfx ++ "├── " ++ name ++ "/\n" ++
          specRender cfg children (pfx ++ "│   ")))
termination_by o _ => sizeOf o
decreasing_by
  simp only [sortNodes] at hmem
  have hmem' : TNode.folder name children ∈ items :=
    ((List.mergeSort_perm items (nodeLe cfg.lc)).mem_iff).mp hmem
  have h1 : sizeOf (TNode.folder name children) < sizeOf items :=
    List.sizeOf_lt_of_mem hmem'
  simp only [TNode.folder.sizeOf_spec] at h1
  simp only [Option.some.sizeOf_spec]
  omega

/-- The per-node step of `specRender` without `attach`. -/
def specEntry (cfg : FmtConfig) (pfx : String) : TNode → Option String
  | .file name =>
    if specFileMatch cfg.ignoredFiles name then none
    else some (pfx ++ "├── " ++ name)
  | .folder name children =>
    if specFolderMatch cfg.ignoredFolders name then none
    else some (pfx ++ "├── " ++ name ++ "/\n" ++
      specRender cfg children (pfx ++ "│   "))

/-- Modelled from the spec: the tier-settings record of `@/lib/tiers`
(not among the analysed sources): numeric generation limit, numeric
max-output-tokens, backend model identifier. -/
structure TierSettings where
  generations : Nat
  maxTokens : Nat
  anthropicModel : String

/-- Modelled from the spec: a template-registry entry of `@/lib/templates`
(not among the analysed sources). The dependency and script maps are kept
as their `JSON.stringify(_, null, 2)` renderings, which is the only use the
route makes of them. -/
structure TemplateConfig where
  name : String
  conventions : List String
  dependenciesJson : String
  scriptsJson : String

/-- One conversation turn of the request body. -/
structure Msg where
  role : String
  content : String
deriving DecidableEq

/-- The JSON request body destructured at route.ts lines 112-122. `line`
is kept as its interpolated text; a folder tree may be absent (`files`
falsy at line 133). -/
structure ReqBody where
  messages : List Msg
  context : Option String
  activeFileContent : Option String
  isEditMode : Bool
  fileName : String
  line : String
  templateType : String
  files : Option (List TNode)
  projectName : String

/-- Process-wide read-only collaborator data: formatter configuration,
the tier table with its FREE default, and the template registry. The
tables live outside the analysed sources and are kept abstract. -/
structure RouteConfig where
  fmt : FmtConfig
  TIERS : String → Option TierSettings
  FREE : TierSettings
  templateConfigs : String → Option TemplateConfig

/-- Tier resolution of route.ts lines 103-104:
`TIERS[userData.tier] || TIERS.FREE` (an absent or unknown tier name falls
back to the FREE settings). -/
def resolveTier (rc : RouteConfig) : Option String → TierSettings
  | some t => (rc.TIERS t).getD rc.FREE
  | none => rc.FREE

/-- The tier name displayed in the 429 body (route.ts line 107):
`userData.tier || "FREE"` (JavaScript falsiness: absent or empty gives
"FREE"). -/
def displayTier : Option String → String
  | none => "FREE"
  | some t => if t == "" then "FREE" else t

/-- The usage record fetched from the profile store (route.ts line 100). -/
structure UserData where
  tier : Option String
  generations : Int

/-- JavaScript `x || d` for an optional string (empty string is falsy). -/
def orDefault (o : Option String) (d : String) : String :=
  match o with
  | some s => if s == "" then d else s
  | none => d

/-- JavaScript template interpolation of a possibly-undefined string. -/
def interpOpt : Option String → String
  | some s => s
  | none => "undefined"

/-- The template context block of route.ts lines 128-144: empty when no
template configuration resolves for `templateType`. -/
def mkTemplateContext (rc : RouteConfig) (templateType : String)
    (files : Option (List TNode)) : String :=
  match rc.templateConfigs templateType with
  | none => ""
  | some tc =>
    "\nProject Template: " ++ tc.name ++ "\n\nCurrent File Structure:\n" ++
    (match files with
     | none => "No files available"
     | some fs => formatFileStructure rc.fmt (some fs) "") ++
    "\n\nConventions:\n" ++ joinSep "\n" tc.conventions ++
    "\n\nDependencies:\n" ++ tc.dependenciesJson ++
    "\n\nScripts:\n" ++ tc.scriptsJson ++ "\n"

/-- The system-message assembly of route.ts lines 147-188. In edit mode
the first turn's content is read (`messages[0].content`); with an empty
list this throws a TypeError, modelled as `Except.error` carrying the
JavaScript error message. -/
def buildSystemMessage (templateContext : String) (b : ReqBody) :
    Except String String :=
  if b.isEditMode then
    match b.messages with
    | [] => .error "Cannot read properties of undefined (reading 'content')"
    | m :: _ =>
      .ok ("You are an AI code editor working in a " ++ b.templateType ++
        " project. Your task is to modify the given code based on the user's instructions. Only output the modified code, without any explanations or markdown formatting. The code should be a direct replacement for the existing code. If there is no code to modify, refer to the active file content and only output the code that is relevant to the user's instructions.... \n" ++
        templateContext ++ "\n\nFile: " ++ b.fileName ++ "\nLine: " ++ b.line ++
        "\n\nContext:\n" ++ orDefault b.context "No additional context provided" ++
        "\n\nActive File Content:\n" ++ interpOpt b.activeFileContent ++
        "\n\nInstructions: " ++ m.content ++
        "\n\nRespond only with the modified code that can directly replace the existing code.")
  else
    .ok ("You are an intelligent programming assistant for a " ++ b.templateType ++
      " project. Please respond to the following request concisely. When providing code:\n\n1. Format it using triple backticks (```) with the appropriate language identifier.\n2. Always specify the complete file path in the format:\n   " ++
      b.projectName ++ "/filepath/to/file.ext\n\n3. If creating a new file, specify the path as:\n   " ++
      b.projectName ++ "/filepath/to/file.ext (new file)\n\n4. Format your code blocks as:\n\n" ++
      b.projectName ++ "/filepath/to/file.ext\n```language\ncode here\n```\n\nIf multiple files are involved, repeat the format for each file. Provide a clear and concise explanation along with any code snippets. Keep your response brief and to the point.\n\nThis is the project template:\n" ++
      templateContext ++ "\n\n" ++
      (match b.context with
       | some c => if c == "" then "" else "Context:\n" ++ c ++ "\n"
       | none => "") ++ "\n" ++
      (match b.activeFileContent with
       | some a => if a == "" then "" else "Active File Content:\n" ++ a ++ "\n"
       | none => ""))

/-- The `delta` object of a parsed Bedrock envelope; `text` may be absent
(and an empty string is falsy for the `parsed.delta?.text` test). -/
structure BedrockDelta where
  text : Option String
deriving DecidableEq

/-- A Bedrock chunk's decoded JSON envelope: its `type` tag and optional
`delta`. -/
structure BedrockEnvelope where
  type : String
  delta : Option BedrockDelta
deriving DecidableEq

/-- The decoded bytes of a Bedrock chunk: either text that fails
`JSON.parse`, or a parsed envelope. -/
inductive BedrockPayload where
  | malformed (raw : String)
  | json (envelope : BedrockEnvelope)
deriving DecidableEq

/-- One item of the Bedrock response-stream iterator: `chunk.chunk?.bytes`
may be absent. -/
inductive BedrockChunk where
  | noBytes
  | bytes (payload : BedrockPayload)
deriving DecidableEq

/-- How the output `ReadableStream` terminates: `controller.close()` or
`controller.error(e)`. -/
inductive StreamEnd where
  | closed
  | errored (msg : String)
deriving DecidableEq

/-- What one streaming loop produces: enqueued text fragments, log
entries, and the termination signal. -/
structure StreamRun where
  fragments : List String
  logs : List String
  ending : StreamEnd
deriving DecidableEq

/-- JavaScript `parsed.delta?.text`. -/
def deltaText : Option BedrockDelta → Option String
  | some d => d.text
  | none => none

/-- The Bedrock chunk-consumption loop of route.ts lines 241-256: skip
chunks without bytes, log and skip malformed JSON, discard
`message_start`/`content_block_start`, and enqueue the delta text of
`content_block_delta`/`message_delta` envelopes whose `delta?.text` is
truthy. -/
def bedrockLoop : List BedrockChunk → StreamRun
  | [] => { fragments := [], logs := [], ending := .closed }
  | c :: cs =>
    let r := bedrockLoop cs
    match c with
    | .noBytes => r
    | .bytes (.malformed _) =>
      { r with logs := "Error parsing Bedrock chunk:" :: r.logs }
    | .bytes (.json e) =>
      if e.type == "message_start" || e.type == "content_block_start" then r
      else
        match deltaText e.delta with
        | some s =>
          if (e.type == "content_block_delta" || e.type == "message_delta")
              && !(s == "") then
            { r with fragments := s :: r.fragments }
          else r
        | none => r

/-- The full Bedrock stream body (route.ts lines 232-263): the chunks the
iterator delivers, then either a normal `controller.close()` or, when the
iterator fails afterwards, a logged `controller.error`. -/
def runBedrockStream (chunks : List BedrockChunk) (err : Option String) :
    StreamRun :=
  let r := bedrockLoop chunks
  match err with
  | none => r
  | some m =>
    { r with logs := r.logs ++ ["Bedrock streaming error:"], ending := .errored m }

/-- One event of the Anthropic SDK stream: an event whose `type` is
`content_block_delta` carries `delta.type` and `delta.text`; the `delta`
of any other event is never inspected (short-circuit at route.ts
line 304). -/
inductive AnthropicEvent where
  | contentBlockDelta (deltaType : String) (text : String)
  | otherEvent (type : String)
deriving DecidableEq

/-- The Anthropic event-consumption loop of route.ts lines 303-307:
enqueue `chunk.delta.text` exactly for `content_block_delta` events whose
delta is a `text_delta`. -/
def anthropicLoop : List AnthropicEvent → StreamRun
  | [] => { fragments := [], logs := [], ending := .closed }
  | e :: es =>
    let r := anthropicLoop es
    match e with
    | .contentBlockDelta dt text =>
      if dt == "text_delta" then { r with fragments := text :: r.fragments }
      else r
    | .otherEvent _ => r

/-- The full Anthropic stream body (route.ts lines 300-314). -/
def runAnthropicStream (events : List AnthropicEvent) (err : Option String) :
    StreamRun :=
  let r := anthropicLoop events
  match err with
  | none => r
  | some m =>
    { r with logs := r.logs ++ ["Anthropic streaming error:"], ending := .errored m }

/-- Text payload selected by the claim's wording for the Bedrock path: an
envelope of kind `content_block_delta` or `message_delta` carrying a text
delta contributes its text; everything else contributes nothing. -/
def bedrockSpecText : BedrockChunk → Option String
  | .bytes (.json e) =>
    if e.type == "content_block_delta" || e.type == "message_delta" then
      deltaText e.delta
    else none
  | _ => none

/-- Text payload selected by the claim's wording for the Anthropic path:
an event of kind `content_block_delta` whose delta is a `text_delta`
contributes its text. -/
def anthropicSpecText : AnthropicEvent → Option String
  | .contentBlockDelta dt text => if dt == "text_delta" then some text else none
  | .otherEvent _ => none

/-- Concatenation of emitted fragments, in order. -/
def concatAll : List String → String
  | [] => ""
  | s :: rest => s ++ concatAll rest

/-- What the Bedrock loop body enqueues for one chunk (route.ts lines
242-255), as a partial selection function. -/
def bedrockEmit : BedrockChunk → Option String
  | .bytes (.json e) =>
    if e.type == "message_start" || e.type == "content_block_start" then none
    else
      match deltaText e.delta with
      | some s =>
        if (e.type == "content_block_delta" || e.type == "message_delta")
            && !(s == "") then some s
        else none
      | none => none
  | _ => none

/-- The process environment variables read at module initialization
(route.ts line 13). -/
structure Env where
  AWS_ACCESS_KEY_ID : Option String
  AWS_SECRET_ACCESS_KEY : Option String
  AWS_REGION : Option String
  AWS_ARN : Option String

/-- JavaScript truthiness of an optional environment string (absent or
empty is falsy). -/
def truthy : Option String → Bool
  | none => false
  | some s => !(s == "")

/-- Backend selection at process initialization (route.ts line 13):
`!!(AWS_ACCESS_KEY_ID && AWS_SECRET_ACCESS_KEY && AWS_REGION && AWS_ARN)`. -/
def useBedrockClient (env : Env) : Bool :=
  truthy env.AWS_ACCESS_KEY_ID && truthy env.AWS_SECRET_ACCESS_KEY
    && truthy env.AWS_REGION && truthy env.AWS_ARN

/-- The `bedrockClient` handle of route.ts lines 14-20: non-null exactly
when the credential quadruple was complete at initialization. -/
def bedrockClient (env : Env) : Option Unit :=
  if useBedrockClient env then some () else none

/-- Outcome of a collaborator `fetch`: the promise rejects (thrown), or a
response arrives with its `ok` flag. -/
inductive FetchOutcome where
  | thrown (msg : String)
  | returned (ok : Bool)
deriving DecidableEq

/-- Which backend the request was dispatched to. -/
inductive BackendKind where
  | bedrock
  | anthropic
deriving DecidableEq

/-- The per-request behaviour of every external collaborator, supplied as
an oracle: identity resolution, the three profile-store calls, the backend
call results and a possible mid-stream iterator failure. -/
structure Oracle where
  user : Option String
  checkReset : FetchOutcome
  userFetch : Except String UserData
  reqBody : Except String ReqBody
  bedrockSend : Except String (Option (List BedrockChunk))
  bedrockErr : Option String
  anthropicCreate : Except String (List AnthropicEvent)
  anthropicErr : Option String
  increment : FetchOutcome

/-- Observable result of one `POST` call: HTTP status, plain-text body
(for a streaming response, the concatenation of all fragments), the
fragments in emission order, console logs, which backend was invoked,
how many increment-generations calls were attempted, and how the response
stream terminated. -/
structure PostResult where
  status : Nat
  body : String
  fragments : List String
  logs : List String
  backendCalled : Option BackendKind
  incrementAttempts : Nat
  streamEnding : Option StreamEnd

/-- The catch-all boundary of route.ts lines 324-330: a thrown error is
logged and surfaced as a 500 whose body is the error's message. -/
def errorResult (m : String) (logs : List String) (bc : Option BackendKind)
    (inc : Nat) : PostResult :=
  { status := 500, body := m, fragments := [], logs := logs ++ ["AI generation error:"],
    backendCalled := bc, incrementAttempts := inc, streamEnding := none }

/-- The `POST` handler (route.ts lines 68-331): identity check, usage
check-and-reset, usage fetch, tier resolution and quota gate, body
parsing, prompt assembly, backend dispatch with one increment call, and
the streamed response. -/
def POST (env : Env) (rc : RouteConfig) (o : Oracle) : PostResult :=
  match o.user with
  | none =>
    { status := 401, body := "Unauthorized", fragments := [], logs := [],
      backendCalled := none, incrementAttempts := 0, streamEnding := none }
  | some _ =>
    match o.checkReset with
    | .thrown m => errorResult m [] none 0
    | .returned ok =>
      let logs0 := if ok then [] else ["Failed to check usage reset"]
      match o.userFetch with
      | .error m => errorResult m logs0 none 0
      | .ok userData =>
        let tierSettings := resolveTier rc userData.tier
        if (tierSettings.generations : Int) ≤ userData.generations then
          { status := 429,
            body := "AI generation limit reached for your " ++
              displayTier userData.tier ++ " tier",
            fragments := [], logs := logs0, backendCalled := none,
            incrementAttempts := 0, streamEnding := none }
        else
          match o.reqBody with
          | .error m => errorResult m logs0 none 0
          | .ok b =>
            let templateContext := mkTemplateContext rc b.templateType b.files
            match buildSystemMessage templateContext b with
            | .error m => errorResult m logs0 none 0
            | .ok _sysMsg =>
              if useBedrockClient env && (bedrockClient env).isSome then
                match o.bedrockSend with
                | .error m => errorResult m logs0 (some .bedrock) 0
                | .ok responseBody =>
                  match o.increment with
                  | .thrown m => errorResult m logs0 (some .bedrock) 1
                  | .returned _ =>
                    match responseBody with
                    | none =>
                      { status := 200, body := "", fragments := [],
                        logs := logs0 ++ ["No response body received from Bedrock"],
                        backendCalled := some .bedrock, incrementAttempts := 1,
                        streamEnding := some .closed }
                    | some chunks =>
                      let run := runBedrockStream chunks o.bedrockErr
                      { status := 200, body := concatAll run.fragments,
                        fragments := run.fragments, logs := logs0 ++ run.logs,
                        backendCalled := some .bedrock, incrementAttempts := 1,
                        streamEnding := some run.ending }
              else
                match o.anthropicCreate with
                | .error m => errorResult m logs0 (some .anthropic) 0
                | .ok events =>
                  match o.increment with
                  | .thrown m => errorResult m logs0 (some .anthropic) 1
                  | .returned _ =>
                    let run := runAnthropicStream events o.anthropicErr
                    { status := 200, body := concatAll run.fragments,
                      fragments := run.fragments, logs := logs0 ++ run.logs,
                      backendCalled := some .anthropic, incrementAttempts := 1,
                      streamEnding := some run.ending }

/-- A credential is provided in the process-wide configuration: set to a
non-empty value (JavaScript truthiness of `process.env.X`). -/
def providedCred (o : Option String) : Prop := ∃ s, o = some s ∧ s ≠ ""

/-- A trivial collation, usable as a lawful `localeCompare` model on
concrete inputs. -/
def lcZero : String → String → Int := fun _ _ => 0

/-- A formatter configuration with no ignore rules. -/
def cfgPlain : FmtConfig :=
  { ignoredFiles := [], ignoredFolders := [], lc := lcZero }

/-- A formatter configuration whose only ignore pattern carries a leading
wildcard. -/
def cfgStar : FmtConfig :=
  { ignoredFiles := ["*.log"], ignoredFolders := [], lc := lcZero }

/-- A concrete route configuration: empty tier table (every lookup falls
back to the FREE tier, limit 3) and empty template registry. -/
def sampleRc : RouteConfig :=
  { fmt := cfgPlain, TIERS := fun _ => none,
    FREE := { generations := 3, maxTokens := 256, anthropicModel := "claude" },
    templateConfigs := fun _ => none }

/-- An environment with no AWS credentials (direct-API backend). -/
def sampleEnv : Env := ⟨none, none, none, none⟩

/-- A well-formed non-edit request body. -/
def sampleBody : ReqBody :=
  { messages := [⟨"human", "hi"⟩], context := none, activeFileContent := none,
    isEditMode := false, fileName := "f.ts", line := "1", templateType := "react",
    files := none, projectName := "proj" }

/-- An edit-mode request body with an empty conversation. -/
def bodyEditEmpty : ReqBody :=
  { messages := [], context := none, activeFileContent := none,
    isEditMode := true, fileName := "f.ts", line := "1", templateType := "react",
    files := none, projectName := "proj" }

/-- The edit-mode empty body with the flag cleared. -/
def bodyChatEmpty : ReqBody := { bodyEditEmpty with isEditMode := false }

/-- An oracle for a user whose usage (5) exceeds the FREE limit (3). -/
def oracleQuota : Oracle :=
  { user := some "u1", checkReset := .returned true,
    userFetch := .ok ⟨some "PRO", 5⟩, reqBody := .ok sampleBody,
    bedrockSend := .error "not configured", bedrockErr := none,
    anthropicCreate := .ok [], anthropicErr := none, increment := .returned true }

/-- An oracle for an under-quota user sending the empty edit-mode body. -/
def oracleEditEmpty : Oracle :=
  { user := some "u1", checkReset := .returned true,
    userFetch := .ok ⟨none, 0⟩, reqBody := .ok bodyEditEmpty,
    bedrockSend := .error "not configured", bedrockErr := none,
    anthropicCreate := .ok [], anthropicErr := none, increment := .returned true }

/-- An oracle for an under-quota user whose increment-generations call
returns an unsuccessful response. -/
def oracleIncrementFail : Oracle :=
  { user := some "u1", checkReset := .returned true,
    userFetch := .ok ⟨none, 0⟩, reqBody := .ok sampleBody,
    bedrockSend := .error "not configured", bedrockErr := none,
    anthropicCreate := .ok [AnthropicEvent.contentBlockDelta "text_delta" "hi"],
    anthropicErr := none, increment := .returned false }

theorem formatFileStructure_none (cfg : FmtConfig) (pfx : String) :
    formatFileStructure cfg none pfx = "No files available" := by
  simp [formatFileStructure]

theorem filterMap_attach_eq {α β : Type} (l : List α)
    (f : {x // x ∈ l} → Option β) (g : α → Option β)
    (h : ∀ x : {x // x ∈ l}, f x = g x.1) :
    l.attach.filterMap f = l.filterMap g := by
  calc l.attach.filterMap f
      = l.attach.filterMap (fun x => g x.1) :=
        List.filterMap_congr (fun x _ => h x)
    _ = (l.attach.map Subtype.val).filterMap g := (List.filterMap_map ..).symm
    _ = l.filterMap g := by rw [List.attach_map_subtype_val]

theorem formatFileStructure_some (cfg : FmtConfig) (items : List TNode) (pfx : String) :
    formatFileStructure cfg (some items) pfx =
      joinSep "\n" ((sortNodes cfg.lc items).filterMap (renderEntry cfg pfx)) := by
  rw [formatFileStructure]
  congr 1
  apply filterMap_attach_eq
  intro x
  rcases x with ⟨node, h⟩
  cases node <;> rfl

theorem specRender_none (cfg : FmtConfig) (pfx : String) :
    specRender cfg none pfx = "No files available" := by
  simp [specRender]

theorem specRender_some (cfg : FmtConfig) (items : List TNode) (pfx : String) :
    specRender cfg (some items) pfx =
      joinSep "\n" ((sortNodes cfg.lc items).filterMap (specEntry cfg pfx)) := by
  rw [specRender]
  congr 1
  apply filterMap_attach_eq
  intro x
  rcases x with ⟨node, h⟩
  cases node <;> rfl

theorem any_or_comm_str (l : List String) (p q : String → Bool) :
    (l.any fun x => p x || q x) = (l.any fun x => q x || p x) := by
  induction l with
  | nil => rfl
  | cons a l ih => simp only [List.any_cons, ih, Bool.or_comm]

theorem fileIgnored_eq_spec (patterns : List String) (name : String) :
    fileIgnored patterns name = specFileMatch patterns name :=
  any_or_comm_str patterns _ _

theorem folderIgnored_eq_spec (folders : List String) (name : String) :
    folderIgnored folders name = specFolderMatch folders name := by
  unfold folderIgnored specFolderMatch
  induction folders with
  | nil => rfl
  | cons a l ih =>
    simp only [List.any_cons, ih]
    have h : (a == name) = (name == a) := by
      rw [Bool.eq_iff_iff]
      constructor
      · intro hx; rw [beq_iff_eq] at hx ⊢; exact hx.symm
      · intro hx; rw [beq_iff_eq] at hx ⊢; exact hx.symm
    rw [h]

/-- The helper bound used for the strong induction over trees. -/
theorem sizeOf_children_lt_of_mem (lc : String → String → Int)
    (items : List TNode) (name : String) (children : Option (List TNode))
    (h : TNode.folder name children ∈ sortNodes lc items) :
    sizeOf children < sizeOf items := by
  simp only [sortNodes] at h
  have h' : TNode.folder name children ∈ items :=
    ((List.mergeSort_perm items (nodeLe lc)).mem_iff).mp h
  have h1 : sizeOf (TNode.folder name children) < sizeOf items :=
    List.sizeOf_lt_of_mem h'
  simp only [TNode.folder.sizeOf_spec] at h1
  omega

/-- C6 (amended): for every input tree, `formatFileStructure` emits no
line for a File whose name matches an ignore pattern by exact equality or
by suffix match after removing the first occurrence of the wildcard marker
from the pattern, emits no line for a Folder whose name exactly equals an
ignored-folder name, omits all descendants of a dropped Folder, and drops
no File or Folder for any other reason: it coincides with `specRender`,
the rendering written from that rule. -/
theorem format_eq_spec (cfg : FmtConfig) (o : Option (List TNode)) (pfx : String) :
    formatFileStructure cfg o pfx = specRender cfg o pfx := by
  suffices H : ∀ (n : Nat) (o : Option (List TNode)) (pfx : String), sizeOf o ≤ n →
      formatFileStructure cfg o pfx = specRender cfg o pfx from
    H (sizeOf o) o pfx le_rfl
  intro n
  induction n with
  | zero =>
    intro o pfx h
    cases o with
    | none => rw [formatFileStructure_none, specRender_none]
    | some items => simp only [Option.some.sizeOf_spec] at h; omega
  | succ n ih =>
    intro o pfx h
    cases o with
    | none => rw [formatFileStructure_none, specRender_none]
    | some items =>
      rw [formatFileStructure_some, specRender_some]
      congr 1
      apply List.filterMap_congr
      intro node hnode
      cases node with
      | file name =>
        simp only [renderEntry, specEntry, fileIgnored_eq_spec]
      | folder name children =>
        have hc : sizeOf children < sizeOf items :=
          sizeOf_children_lt_of_mem cfg.lc items name children hnode
        simp only [Option.some.sizeOf_spec] at h
        have hrec : formatFileStructure cfg children (pfx ++ "│   ") =
            specRender cfg children (pfx ++ "│   ") :=
          ih children (pfx ++ "│   ") (by omega)
        simp only [renderEntry, specEntry, folderIgnored_eq_spec, hrec]

theorem bedrockLoop_fragments (cs : List BedrockChunk) :
    (bedrockLoop cs).fragments = cs.filterMap bedrockEmit := by
  induction cs with
  | nil => rfl
  | cons c cs ih =>
    cases c with
    | noBytes => simp [bedrockLoop, bedrockEmit, List.filterMap_cons, ih]
    | bytes p =>
      cases p with
      | malformed raw => simp [bedrockLoop, bedrockEmit, List.filterMap_cons, ih]
      | json e =>
        simp only [bedrockLoop, bedrockEmit, List.filterMap_cons]
        by_cases h1 : (e.type == "message_start" || e.type == "content_block_start") = true
        · simp [h1, ih]
        · simp only [h1]
          cases hd : deltaText e.delta with
          | none => simp [ih]
          | some s =>
            by_cases h2 : ((e.type == "content_block_delta" || e.type == "message_delta")
                && !(s == "")) = true
            · simp [h2, ih]
            · simp [h2, ih]

theorem bedrockLoop_ending (cs : List BedrockChunk) :
    (bedrockLoop cs).ending = StreamEnd.closed := by
  induction cs with
  | nil => rfl
  | cons c cs ih =>
    cases c with
    | noBytes => simpa [bedrockLoop] using ih
    | bytes p =>
      cases p with
      | malformed raw => simpa [bedrockLoop] using ih
      | json e =>
        simp only [bedrockLoop]
        by_cases h1 : (e.type == "message_start" || e.type == "content_block_start") = true
        · simpa [h1] using ih
        · simp only [h1]
          cases hd : deltaText e.delta with
          | none => simpa using ih
          | some s =>
            by_cases h2 : ((e.type == "content_block_delta" || e.type == "message_delta")
                && !(s == "")) = true
            · simpa [h2] using ih
            · simpa [h2] using ih

theorem bedrockLoop_logs (cs : List BedrockChunk) :
    (bedrockLoop cs).logs =
      cs.filterMap (fun c => match c with
        | .bytes (.malformed _) => some "Error parsing Bedrock chunk:"
        | _ => none) := by
  induction cs with
  | nil => rfl
  | cons c cs ih =>
    cases c with
    | noBytes => simp [bedrockLoop, List.filterMap_cons, ih]
    | bytes p =>
      cases p with
      | malformed raw => simp [bedrockLoop, List.filterMap_cons, ih]
      | json e =>
        simp only [bedrockLoop, List.filterMap_cons]
        by_cases h1 : (e.type == "message_start" || e.type == "content_block_start") = true
        · simp [h1, ih]
        · simp only [h1]
          cases hd : deltaText e.delta with
          | none => simp [ih]
          | some s =>
            by_cases h2 : ((e.type == "content_block_delta" || e.type == "message_delta")
                && !(s == "")) = true
            · simp [h2, ih]
            · simp [h2, ih]

theorem bedrockEmit_vs_spec (c : BedrockChunk) :
    bedrockSpecText c = bedrockEmit c ∨
      (bedrockEmit c = none ∧ bedrockSpecText c = some "") := by
  cases c with
  | noBytes => left; rfl
  | bytes p =>
    cases p with
    | malformed raw => left; rfl
    | json e =>
      rcases e with ⟨ty, d⟩
      simp only [bedrockSpecText, bedrockEmit]
      by_cases h1 : (ty == "message_start" || ty == "content_block_start") = true
      · have h2 : (ty == "content_block_delta" || ty == "message_delta") = false := by
          rcases Bool.or_eq_true_iff.mp h1 with h | h
          · have hty : ty = "message_start" := by
              have := h; rwa [beq_iff_eq] at this
            subst hty; decide
          · have hty : ty = "content_block_start" := by
              have := h; rwa [beq_iff_eq] at this
            subst hty; decide
        simp [h1, h2]
      · simp only [h1, if_neg, Bool.false_eq_true, not_false_eq_true]
        cases hd : deltaText d with
        | none => simp
        | some s =>
          by_cases hc : (ty == "content_block_delta" || ty == "message_delta") = true
          · by_cases hs : s = ""
            · subst hs; right; simp [hc]
            · left
              have hs' : (s == "") = false := by
                rw [Bool.eq_false_iff]
                intro hx
                exact hs (by rwa [beq_iff_eq] at hx)
              simp [hc, hs']
          · simp only [Bool.not_eq_true] at hc
            simp [hc]

theorem concat_emit_eq_spec (cs : List BedrockChunk) :
    concatAll (cs.filterMap bedrockEmit) = concatAll (cs.filterMap bedrockSpecText) := by
  induction cs with
  | nil => rfl
  | cons c cs ih =>
    rcases bedrockEmit_vs_spec c with h | ⟨h1, h2⟩
    · simp only [List.filterMap_cons, h]
      cases bedrockEmit c with
      | none => exact ih
      | some s => simp [concatAll, ih]
    · simp only [List.filterMap_cons, h1, h2]
      show concatAll (cs.filterMap bedrockEmit) = "" ++ concatAll (cs.filterMap bedrockSpecText)
      rw [ih]
      rfl

theorem anthropicLoop_fragments (es : List AnthropicEvent) :
    (anthropicLoop es).fragments = es.filterMap anthropicSpecText := by
  induction es with
  | nil => rfl
  | cons e es ih =>
    cases e with
    | otherEvent ty => simp [anthropicLoop, anthropicSpecText, List.filterMap_cons, ih]
    | contentBlockDelta dt text =>
      simp only [anthropicLoop, anthropicSpecText, List.filterMap_cons]
      by_cases h : (dt == "text_delta") = true
      · simp [h, ih]
      · simp [h, ih]

theorem anthropicLoop_ending (es : List AnthropicEvent) :
    (anthropicLoop es).ending = StreamEnd.closed := by
  induction es with
  | nil => rfl
  | cons e es ih =>
    cases e with
    | otherEvent ty => simpa [anthropicLoop] using ih
    | contentBlockDelta dt text =>
      simp only [anthropicLoop]
      by_cases h : (dt == "text_delta") = true
      · simpa [h] using ih
      · simpa [h] using ih

/-- C2: for every chunk sequence, the concatenation of emitted text
fragments equals the concatenation, in arrival order, of exactly the text
payloads of `content_block_delta`/`message_delta` envelopes carrying a
text delta (Bedrock path) respectively of `content_block_delta` events
whose delta is a `text_delta` (Anthropic path); all other chunk kinds
contribute nothing, and the Anthropic fragment list is literally the
arrival-order selection, so nothing is reordered or coalesced. -/
theorem stream_normalizer_concat (chunks : List BedrockChunk)
    (events : List AnthropicEvent) (err err' : Option String) :
    concatAll (runBedrockStream chunks err).fragments
        = concatAll (chunks.filterMap bedrockSpecText) ∧
    (runAnthropicStream events err').fragments = events.filterMap anthropicSpecText ∧
    concatAll (runAnthropicStream events err').fragments
        = concatAll (events.filterMap anthropicSpecText) := by
  have hbf : (runBedrockStream chunks err).fragments = (bedrockLoop chunks).fragments := by
    unfold runBedrockStream
    cases err <;> rfl
  have haf : (runAnthropicStream events err').fragments = (anthropicLoop events).fragments := by
    unfold runAnthropicStream
    cases err' <;> rfl
  refine ⟨?_, ?_, ?_⟩
  · rw [hbf, bedrockLoop_fragments, concat_emit_eq_spec]
  · rw [haf, anthropicLoop_fragments]
  · rw [haf, anthropicLoop_fragments]

/-- C5: a chunk whose bytes fail to parse as JSON is logged and skipped
without terminating the Bedrock output stream: the fragments are exactly
those of the surrounding chunks, every valid chunk after the malformed one
still contributes its text delta, and the stream still closes normally at
backend end-of-stream. -/
theorem malformed_chunk_skipped (pre post : List BedrockChunk) (raw : String) :
    (runBedrockStream (pre ++ BedrockChunk.bytes (BedrockPayload.malformed raw) :: post) none).fragments
        = (runBedrockStream pre none).fragments ++ (runBedrockStream post none).fragments ∧
    (runBedrockStream (pre ++ BedrockChunk.bytes (BedrockPayload.malformed raw) :: post) none).ending
        = StreamEnd.closed ∧
    "Error parsing Bedrock chunk:" ∈
      (runBedrockStream (pre ++ BedrockChunk.bytes (BedrockPayload.malformed raw) :: post) none).logs := by
  refine ⟨?_, ?_, ?_⟩
  · show (bedrockLoop _).fragments = (bedrockLoop _).fragments ++ (bedrockLoop _).fragments
    simp [bedrockLoop_fragments, List.filterMap_append, List.filterMap_cons, bedrockEmit]
  · show (bedrockLoop _).ending = StreamEnd.closed
    exact bedrockLoop_ending _
  · show _ ∈ (bedrockLoop _).logs
    simp [bedrockLoop_logs, List.filterMap_append, List.filterMap_cons]

/-- C6 counterexample: with ignore pattern `"*.log"`, the file name
`"a.log"` matches no pattern in the claim's as-written sense (exact
equality, or suffix match after stripping a TRAILING wildcard marker —
`"*.log"` has none to strip), yet `formatFileStructure` emits no line for
it: the code strips the FIRST `*` wherever it occurs, so the claim as
written is false. -/
theorem trailing_star_counterexample :
    claimFileMatch ["*.log"] "a.log" = false ∧
    formatFileStructure cfgStar (some [TNode.file "a.log"]) "" = "" := by
  constructor
  · decide
  · rw [formatFileStructure_some]
    rw [show sortNodes cfgStar.lc [TNode.file "a.log"] = [TNode.file "a.log"] from by
      simp [sortNodes]]
    decide

theorem nodeLe_total_of (lc : String → String → Int)
    (htot : ∀ a b, lc a b ≤ 0 ∨ lc b a ≤ 0) :
    ∀ a b : TNode, nodeLe lc a b || nodeLe lc b a := by
  intro a b
  cases a <;> cases b <;>
    simp [nodeLe, nodeCompare, TNode.ntype, TNode.name] <;>
    exact htot _ _

theorem nodeLe_trans_of (lc : String → String → Int)
    (htr : ∀ a b c, lc a b ≤ 0 → lc b c ≤ 0 → lc a c ≤ 0) :
    ∀ a b c : TNode, nodeLe lc a b → nodeLe lc b c → nodeLe lc a c := by
  intro a b c hab hbc
  cases a <;> cases b <;> cases c <;>
    simp_all [nodeLe, nodeCompare, TNode.ntype, TNode.name] <;>
    exact htr _ _ _ hab hbc

theorem nodeLe_not_file_folder {lc : String → String → Int} {x y : TNode}
    (h : nodeLe lc x y = true) : ¬(x.ntype = "file" ∧ y.ntype = "folder") := by
  rintro ⟨hx, hy⟩
  cases x <;> cases y <;> simp_all [TNode.ntype, nodeLe, nodeCompare]

theorem nodeLe_name_le {lc : String → String → Int} {x y : TNode}
    (h : nodeLe lc x y = true) (ht : x.ntype = y.ntype) :
    lc x.name y.name ≤ 0 := by
  cases x <;> cases y <;> simp_all [TNode.ntype, TNode.name, nodeLe, nodeCompare]

/-- C7: at each nesting level the listing order of `formatFileStructure`
(the `sortNodes` order) places every folder before every file, orders
same-kind nodes by the name collation (`localeCompare`, assumed a total
preorder), and the sort is stable: any pair already in comparator order in
the input remains in that order in the output. -/
theorem listing_order (lc : String → String → Int)
    (htot : ∀ a b, lc a b ≤ 0 ∨ lc b a ≤ 0)
    (htr : ∀ a b c, lc a b ≤ 0 → lc b c ≤ 0 → lc a c ≤ 0)
    (items : List TNode) (a b : TNode)
    (hab : nodeLe lc a b = true) (hsub : [a, b].Sublist items) :
    List.Pairwise (fun x y => ¬(x.ntype = "file" ∧ y.ntype = "folder"))
        (sortNodes lc items) ∧
    List.Pairwise (fun x y => x.ntype = y.ntype → lc x.name y.name ≤ 0)
        (sortNodes lc items) ∧
    [a, b].Sublist (sortNodes lc items) := by
  have htrans := nodeLe_trans_of lc htr
  have htotal := nodeLe_total_of lc htot
  have hsorted : (sortNodes lc items).Pairwise (fun x y => nodeLe lc x y = true) := by
    simpa [sortNodes] using
      @List.sorted_mergeSort TNode (nodeLe lc) htrans htotal items
  refine ⟨?_, ?_, ?_⟩
  · exact hsorted.imp (fun hxy => nodeLe_not_file_folder hxy)
  · exact hsorted.imp (fun hxy ht => nodeLe_name_le hxy ht)
  · simpa [sortNodes] using List.pair_sublist_mergeSort htrans htotal hab hsub

/-- Witness for C7 at a concrete collation, node pair and list. -/
theorem listing_order_witness :
    List.Pairwise (fun x y => ¬(x.ntype = "file" ∧ y.ntype = "folder"))
        (sortNodes lcZero [TNode.folder "a" none, TNode.file "b"]) ∧
    List.Pairwise (fun x y => x.ntype = y.ntype → lcZero x.name y.name ≤ 0)
        (sortNodes lcZero [TNode.folder "a" none, TNode.file "b"]) ∧
    [TNode.folder "a" none, TNode.file "b"].Sublist
        (sortNodes lcZero [TNode.folder "a" none, TNode.file "b"]) :=
  listing_order lcZero (fun _ _ => Or.inl (le_refl 0))
    (fun _ _ _ _ _ => le_refl 0)
    [TNode.folder "a" none, TNode.file "b"]
    (TNode.folder "a" none) (TNode.file "b")
    (by decide) (List.Sublist.refl _)

/-- C8: a `templateType` that resolves to no template configuration yields
an empty template-context block and prompt assembly raises no error, in
both edit mode (given the first turn the edit prompt reads) and
explanation mode. -/
theorem unresolved_template_empty (rc : RouteConfig) (tt : String)
    (files : Option (List TNode)) (b : ReqBody)
    (h : rc.templateConfigs tt = none)
    (hmode : b.isEditMode = true → b.messages ≠ []) :
    mkTemplateContext rc tt files = "" ∧
    (buildSystemMessage (mkTemplateContext rc tt files) b).isOk = true := by
  have hctx : mkTemplateContext rc tt files = "" := by
    unfold mkTemplateContext
    rw [h]
  refine ⟨hctx, ?_⟩
  unfold buildSystemMessage
  by_cases he : b.isEditMode
  · cases hm : b.messages with
    | nil => exact absurd hm (hmode he)
    | cons m ms => simp [he, hm, Except.isOk, Except.toBool]
  · simp [he, Except.isOk, Except.toBool]

/-- Witness for C8 on a concrete registry and body. -/
theorem unresolved_template_empty_witness :
    mkTemplateContext sampleRc "vue" none = "" ∧
    (buildSystemMessage (mkTemplateContext sampleRc "vue" none) sampleBody).isOk = true :=
  unresolved_template_empty sampleRc "vue" none sampleBody rfl (fun h => nomatch h)

/-- C10: a Folder whose `children` field is absent (or not an array) is
rendered as its folder line followed, on the next line and without the
level's indentation, by the literal string "No files available"; the
arbitrary `pfx` shows this happens at any nesting depth, not only at the
top-level call. -/
theorem folder_without_children_fallback (cfg : FmtConfig) (name pfx : String)
    (h : folderIgnored cfg.ignoredFolders name = false) :
    formatFileStructure cfg (some [TNode.folder name none]) pfx =
      pfx ++ "├── " ++ name ++ "/\n" ++ "No files available" := by
  rw [formatFileStructure_some]
  rw [show sortNodes cfg.lc [TNode.folder name none] = [TNode.folder name none] from by
    simp [sortNodes]]
  simp [renderEntry, h, formatFileStructure_none, joinSep]

/-- Witness for C10 at a nested indentation prefix. -/
theorem folder_without_children_fallback_witness :
    formatFileStructure cfgPlain (some [TNode.folder "src" none]) "│   " =
      "│   " ++ "├── " ++ "src" ++ "/\n" ++ "No files available" :=
  folder_without_children_fallback cfgPlain "src" "│   " (by decide)

/-- C1: whenever the fetched usage record's generation count reaches the
resolved tier's limit, POST answers 429 with a plain-text body naming the
user's tier, no backend is invoked and no increment-generations call is
attempted. -/
theorem quota_gate_rejects (env : Env) (rc : RouteConfig) (o : Oracle)
    (u : String) (ok : Bool) (ud : UserData)
    (hu : o.user = some u)
    (hcr : o.checkReset = .returned ok)
    (hud : o.userFetch = .ok ud)
    (hq : ((resolveTier rc ud.tier).generations : Int) ≤ ud.generations) :
    (POST env rc o).status = 429 ∧
    (POST env rc o).body =
      "AI generation limit reached for your " ++ displayTier ud.tier ++ " tier" ∧
    (POST env rc o).backendCalled = none ∧
    (POST env rc o).incrementAttempts = 0 := by
  unfold POST
  rw [hu, hcr, hud]
  simp [hq]

/-- Witness for C1: a user at 5 generations against the FREE limit of 3. -/
theorem quota_gate_rejects_witness :
    (POST sampleEnv sampleRc oracleQuota).status = 429 ∧
    (POST sampleEnv sampleRc oracleQuota).body =
      "AI generation limit reached for your " ++ displayTier (some "PRO") ++ " tier" ∧
    (POST sampleEnv sampleRc oracleQuota).backendCalled = none ∧
    (POST sampleEnv sampleRc oracleQuota).incrementAttempts = 0 :=
  quota_gate_rejects sampleEnv sampleRc oracleQuota "u1" true ⟨some "PRO", 5⟩
    rfl rfl rfl (by decide)

/-- C9: with edit mode and an empty messages list, reading the first
turn's content throws and POST answers 500; with edit mode off, prompt
assembly reads no turn, so an empty messages list assembles without
error. -/
theorem edit_mode_empty_messages_500 (env : Env) (rc : RouteConfig) (o : Oracle)
    (u : String) (ok : Bool) (ud : UserData) (b : ReqBody)
    (tc : String) (chat : ReqBody)
    (hu : o.user = some u)
    (hcr : o.checkReset = .returned ok)
    (hud : o.userFetch = .ok ud)
    (hq : ¬ ((resolveTier rc ud.tier).generations : Int) ≤ ud.generations)
    (hrb : o.reqBody = .ok b)
    (he : b.isEditMode = true)
    (hm : b.messages = [])
    (hce : chat.isEditMode = false)
    (hcm : chat.messages = []) :
    (POST env rc o).status = 500 ∧
    (buildSystemMessage tc chat).isOk = true := by
  constructor
  · unfold POST
    rw [hu, hcr, hud, hrb]
    have hb : buildSystemMessage (mkTemplateContext rc b.templateType b.files) b =
        .error "Cannot read properties of undefined (reading 'content')" := by
      unfold buildSystemMessage
      simp [he, hm]
    simp [hq, hb, errorResult]
  · unfold buildSystemMessage
    simp [hce, Except.isOk, Except.toBool]

/-- Witness for C9 on the concrete empty edit-mode request. -/
theorem edit_mode_empty_messages_500_witness :
    (POST sampleEnv sampleRc oracleEditEmpty).status = 500 ∧
    (buildSystemMessage "" bodyChatEmpty).isOk = true :=
  edit_mode_empty_messages_500 sampleEnv sampleRc oracleEditEmpty
    "u1" true ⟨none, 0⟩ bodyEditEmpty "" bodyChatEmpty
    rfl rfl rfl (by decide) rfl rfl rfl rfl rfl

/-- C4: the RemoteManagedRuntime (Bedrock) backend is selected exactly
when the full credential quadruple is provided (non-empty) in the process
configuration, any missing member forcing the DirectProviderAPI
(Anthropic) backend; and every request's dispatch target is exactly the
process-initialization choice `useBedrockClient`, never re-evaluated from
anything request-specific. -/
theorem backend_selection (env : Env) (rc : RouteConfig) (o : Oracle) :
    (useBedrockClient env = true ↔
      (providedCred env.AWS_ACCESS_KEY_ID ∧ providedCred env.AWS_SECRET_ACCESS_KEY ∧
        providedCred env.AWS_REGION ∧ providedCred env.AWS_ARN)) ∧
    ((POST env rc o).backendCalled = none ∨
      (POST env rc o).backendCalled =
        some (if useBedrockClient env then BackendKind.bedrock else BackendKind.anthropic)) := by
  constructor
  · rcases env with ⟨a, b, c, d⟩
    cases a <;> cases b <;> cases c <;> cases d <;>
      simp [useBedrockClient, truthy, providedCred, and_assoc]
  · have hb : (useBedrockClient env && (bedrockClient env).isSome) = useBedrockClient env := by
      unfold bedrockClient
      cases h : useBedrockClient env <;> simp [h]
    obtain ⟨user, cr, uf, rb, bs, be, ac, ae, inc⟩ := o
    unfold POST
    cases user with
    | none => left; rfl
    | some u =>
      cases cr with
      | thrown m => left; rfl
      | returned ok =>
        cases uf with
        | error m => left; rfl
        | ok ud =>
          dsimp only
          by_cases hq : ((resolveTier rc ud.tier).generations : Int) ≤ ud.generations
          · rw [if_pos hq]
            left; rfl
          · rw [if_neg hq]
            cases rb with
            | error m => left; rfl
            | ok b =>
              dsimp only
              cases hbs : buildSystemMessage (mkTemplateContext rc b.templateType b.files) b with
              | error m => left; rfl
              | ok s =>
                rw [hb]
                cases hub : useBedrockClient env with
                | true =>
                  cases bs with
                  | error m => right; rfl
                  | ok rbody =>
                    cases inc with
                    | thrown m => right; rfl
                    | returned okk =>
                      cases rbody with
                      | none => right; rfl
                      | some chunks => right; rfl
                | false =>
                  cases ac with
                  | error m => right; rfl
                  | ok events =>
                    cases inc with
                    | thrown m => right; rfl
                    | returned okk => right; rfl

/-- C3 (amended): a check-and-reset call answering unsuccessfully is
logged ("Failed to check usage reset") and is otherwise invisible to the
request; an increment-generations call answering unsuccessfully is ignored
entirely — not logged and with no effect on the response; and at most one
increment is ever attempted, with no retry. -/
theorem collaborator_failure_nonfatal (env : Env) (rc : RouteConfig) (o : Oracle)
    (u : String) (hu : o.user = some u) :
    POST env rc { o with checkReset := .returned false } =
      { POST env rc { o with checkReset := .returned true } with
        logs := "Failed to check usage reset" ::
          (POST env rc { o with checkReset := .returned true }).logs } ∧
    POST env rc { o with increment := .returned false } =
      POST env rc { o with increment := .returned true } ∧
    (POST env rc o).incrementAttempts ≤ 1 := by
  obtain ⟨user, cr, uf, rb, bs, be, ac, ae, inc⟩ := o
  have hu' : user = some u := hu
  subst hu'
  refine ⟨?_, ?_, ?_⟩
  · unfold POST
    cases uf with
    | error m => rfl
    | ok ud =>
      dsimp only
      by_cases hq : ((resolveTier rc ud.tier).generations : Int) ≤ ud.generations
      · simp only [if_pos hq]
        try rfl
      · simp only [if_neg hq]
        cases rb with
        | error m => rfl
        | ok b =>
          dsimp only
          cases hbs : buildSystemMessage (mkTemplateContext rc b.templateType b.files) b with
          | error m => rfl
          | ok s =>
            cases hub : (useBedrockClient env && (bedrockClient env).isSome) with
            | true =>
              cases bs with
              | error m => rfl
              | ok rbody =>
                cases inc with
                | thrown m => rfl
                | returned okk => cases rbody <;> rfl
            | false =>
              cases ac with
              | error m => rfl
              | ok events =>
                cases inc with
                | thrown m => rfl
                | returned okk => rfl
  · unfold POST
    cases cr with
    | thrown m => rfl
    | returned ok =>
      cases uf with
      | error m => rfl
      | ok ud => dsimp only
  · unfold POST
    cases cr with
    | thrown m => simp [errorResult]
    | returned ok =>
      cases uf with
      | error m => simp [errorResult]
      | ok ud =>
        dsimp only
        by_cases hq : ((resolveTier rc ud.tier).generations : Int) ≤ ud.generations
        · simp only [if_pos hq]
          omega
        · simp only [if_neg hq]
          cases rb with
          | error m => simp [errorResult]
          | ok b =>
            dsimp only
            cases hbs : buildSystemMessage (mkTemplateContext rc b.templateType b.files) b with
            | error m => simp [errorResult]
            | ok s =>
              cases hub : (useBedrockClient env && (bedrockClient env).isSome) with
              | true =>
                cases bs with
                | error m => simp [errorResult]
                | ok rbody =>
                  cases inc with
                  | thrown m => simp [errorResult]
                  | returned okk => cases rbody <;> simp
              | false =>
                cases ac with
                | error m => simp [errorResult]
                | ok events =>
                  cases inc with
                  | thrown m => simp [errorResult]
                  | returned okk => simp

/-- Witness for C3 (amended) on a concrete request. -/
theorem collaborator_failure_nonfatal_witness :
    POST sampleEnv sampleRc { oracleIncrementFail with checkReset := .returned false } =
      { POST sampleEnv sampleRc { oracleIncrementFail with checkReset := .returned true } with
        logs := "Failed to check usage reset" ::
          (POST sampleEnv sampleRc { oracleIncrementFail with checkReset := .returned true }).logs } ∧
    POST sampleEnv sampleRc { oracleIncrementFail with increment := .returned false } =
      POST sampleEnv sampleRc { oracleIncrementFail with increment := .returned true } ∧
    (POST sampleEnv sampleRc oracleIncrementFail).incrementAttempts ≤ 1 :=
  collaborator_failure_nonfatal sampleEnv sampleRc oracleIncrementFail "u1" rfl

/-- C3 counterexample: a request whose increment-generations call fails
(non-ok response) is processed to a successful 200 stream, but its log
output is empty — the failure is NOT logged, contradicting the claim that
collaborator-call failures are logged. -/
theorem increment_failure_not_logged :
    oracleIncrementFail.increment = FetchOutcome.returned false ∧
    (POST sampleEnv sampleRc oracleIncrementFail).status = 200 ∧
    (POST sampleEnv sampleRc oracleIncrementFail).fragments = ["hi"] ∧
    (POST sampleEnv sampleRc oracleIncrementFail).logs = [] := by
  refine ⟨rfl, ?_, ?_, ?_⟩ <;> rfl

end AIRoute
